import Mathlib

/-!
Verification development for the superposition repository.

This file gives a shallow embedding, in Lean, of the session-persistence and
transport stack of the repository: the framed stream codec and data-payload
encoding (internal/shepherd/protocol.go), the replay ring and subscriber
fan-out (internal/shepherd/shepherd.go and the internal/pty session manager),
the shepherd exit broadcast, the supervisor client's refcounted subscription
and its session tables, the WebSocket bridge write ordering
(internal/ws/handler.go), the gateway proxy failure path
(internal/gateway/proxy.go, internal/gateway/tunnel.go), and the
reverse-tunnel reconnect loop (internal/tunnel/client.go).

Bytes are modelled as natural numbers below 256; byte slices as lists of
naturals; Go maps as lists or as membership functions; channels as bounded
queues with the non-blocking-send policy of the source.
-/

namespace Superposition

/-! ### Replay ring (internal/shepherd/shepherd.go, internal/pty session) -/

/-- The replay buffer bound from the source: 100 KiB. -/
def replayBufSize : Nat := 100 * 1024

/-- The body of session.appendReplay: append the chunk to the buffer and, when
the buffer exceeds `replayBufSize`, keep only its most recent
`replayBufSize` bytes. Identical in internal/shepherd/shepherd.go and in the
internal/pty Session. -/
def appendReplay (buf data : List Nat) : List Nat :=
  let b := buf ++ data
  if b.length > replayBufSize then b.drop (b.length - replayBufSize) else b

/-- The replay buffer after the PTY reader goroutine has appended the given
chunks in order, starting from the empty buffer. -/
def replayFold (chunks : List (List Nat)) : List Nat :=
  chunks.foldl appendReplay []

theorem appendReplay_drop (l d : List Nat) :
    appendReplay (l.drop (l.length - replayBufSize)) d
      = (l ++ d).drop (l.length + d.length - replayBufSize) := by
  unfold appendReplay
  by_cases h :
      (l.drop (l.length - replayBufSize) ++ d).length > replayBufSize
  · rw [if_pos h]
    rw [List.drop_append_eq_append_drop, List.drop_drop,
      List.drop_append_eq_append_drop]
    have hlen : (l.drop (l.length - replayBufSize) ++ d).length
        = (l.length - (l.length - replayBufSize)) + d.length := by
      simp [List.length_append, List.length_drop]
    have h2 : l.length - replayBufSize
          + ((l.drop (l.length - replayBufSize) ++ d).length - replayBufSize)
        = l.length + d.length - replayBufSize := by
      rw [hlen]; omega
    have h3 : (l.drop (l.length - replayBufSize) ++ d).length - replayBufSize
          - (l.drop (l.length - replayBufSize)).length
        = l.length + d.length - replayBufSize - l.length := by
      rw [hlen, List.length_drop]
      rw [hlen] at h
      omega
    rw [h2, h3]
  · rw [if_neg h]
    rw [List.drop_append_eq_append_drop]
    have hlen : (l.drop (l.length - replayBufSize) ++ d).length
        = (l.length - (l.length - replayBufSize)) + d.length := by
      simp [List.length_append, List.length_drop]
    rw [hlen] at h
    have h2 : l.length + d.length - replayBufSize = l.length - replayBufSize := by
      omega
    have h3 : l.length + d.length - replayBufSize - l.length = 0 := by omega
    rw [h3, h2, List.drop_zero]

theorem foldl_appendReplay_drop (chunks : List (List Nat)) :
    ∀ l : List Nat,
      List.foldl appendReplay (l.drop (l.length - replayBufSize)) chunks
        = (l ++ chunks.flatten).drop
            ((l ++ chunks.flatten).length - replayBufSize) := by
  induction chunks with
  | nil =>
      intro l
      rw [List.flatten_nil, List.append_nil, List.foldl_nil]
  | cons d ds ih =>
      intro l
      rw [List.foldl_cons, appendReplay_drop]
      have hl : l.length + d.length = (l ++ d).length :=
        (List.length_append l d).symm
      rw [hl, ih (l ++ d), List.flatten_cons, ← List.append_assoc]

/-- The replay buffer always equals the most recent `replayBufSize`-byte
suffix of the concatenated PTY output. -/
theorem replayFold_eq_drop (chunks : List (List Nat)) :
    replayFold chunks
      = chunks.flatten.drop (chunks.flatten.length - replayBufSize) := by
  have h := foldl_appendReplay_drop chunks []
  rw [List.drop_nil, List.nil_append] at h
  exact h

/-- C1: for every sequence of PTY output chunks appended, the replay buffer is
a suffix of the concatenation of all output emitted so far and never exceeds
100 KiB; when the total output is exactly 100 KiB the buffer holds all of it,
and at 100 KiB plus one byte the first byte is dropped. -/
theorem C1_replay_ring (chunks : List (List Nat)) :
    replayFold chunks <:+ chunks.flatten
    ∧ (replayFold chunks).length ≤ 100 * 1024
    ∧ (chunks.flatten.length = 100 * 1024 → replayFold chunks = chunks.flatten)
    ∧ (chunks.flatten.length = 100 * 1024 + 1 →
        replayFold chunks = chunks.flatten.tail) := by
  rw [replayFold_eq_drop]
  refine ⟨List.drop_suffix _ _, ?_, ?_, ?_⟩
  · rw [List.length_drop]
    have hN : replayBufSize = 100 * 1024 := rfl
    omega
  · intro h
    rw [h]
    have hz : (100 : Nat) * 1024 - replayBufSize = 0 := rfl
    rw [hz, List.drop_zero]
  · intro h
    rw [h]
    have ho : (100 : Nat) * 1024 + 1 - replayBufSize = 1 := rfl
    rw [ho, List.drop_one]

/-- Witness for C1 at the two boundary inputs: a single chunk of exactly
100 KiB is kept whole; a single chunk of 100 KiB plus one byte loses its
first byte. -/
theorem C1_replay_ring_witness :
    replayFold [List.replicate (100 * 1024) 7] = List.replicate (100 * 1024) 7
    ∧ replayFold [List.replicate (100 * 1024 + 1) 7]
        = List.replicate (100 * 1024) 7 := by
  have e1 : ([List.replicate (100 * 1024) 7] : List (List Nat)).flatten
      = List.replicate (100 * 1024) 7 := by
    rw [List.flatten_cons, List.flatten_nil, List.append_nil]
  have e2 : ([List.replicate (100 * 1024 + 1) 7] : List (List Nat)).flatten
      = List.replicate (100 * 1024 + 1) 7 := by
    rw [List.flatten_cons, List.flatten_nil, List.append_nil]
  constructor
  · have h := (C1_replay_ring [List.replicate (100 * 1024) 7]).2.2.1
      (by rw [e1, List.length_replicate])
    rw [e1] at h
    exact h
  · have h := (C1_replay_ring [List.replicate (100 * 1024 + 1) 7]).2.2.2
      (by rw [e2, List.length_replicate])
    rw [e2] at h
    rw [h, List.tail_replicate]

/-! ### Framed stream codec (internal/shepherd/protocol.go) -/

/-- Frame type tag for JSON control messages. -/
def frameControl : Nat := 0x01

/-- Frame type tag for PTY output data frames. -/
def frameData : Nat := 0x02

/-- Frame type tag for PTY input data frames. -/
def frameInput : Nat := 0x03

/-- The 4-byte big-endian encoding of a uint32 value, as produced by
binary.Write with binary.BigEndian. -/
def be32 (n : Nat) : List Nat :=
  [n / 2 ^ 24 % 256, n / 2 ^ 16 % 256, n / 2 ^ 8 % 256, n % 256]

/-- The uint32 value read back by binary.Read with binary.BigEndian from four
bytes. -/
def be32val (b : List Nat) : Nat :=
  match b with
  | [b0, b1, b2, b3] => ((b0 * 256 + b1) * 256 + b2) * 256 + b3
  | _ => 0

/-- writeFrame: the byte stream [4-byte big-endian length][1-byte type
tag][payload], where length = uint32(1 + len(payload)). -/
def writeFrame (frameType : Nat) (payload : List Nat) : List Nat :=
  be32 ((1 + payload.length) % 2 ^ 32) ++ frameType :: payload

/-- readFrame on a byte stream: read the 4-byte length, reject length 0 and
lengths above 10 MiB, read that many bytes, and return the first as the frame
type and the rest as the payload, together with the unconsumed remainder of
the stream. -/
def readFrame (s : List Nat) : Option (Nat × List Nat × List Nat) :=
  if s.length < 4 then none
  else if be32val (s.take 4) = 0 then none
  else if be32val (s.take 4) > 10 * 1024 * 1024 then none
  else if (s.drop 4).length < be32val (s.take 4) then none
  else
    some (((s.drop 4).take (be32val (s.take 4))).headD 0,
      ((s.drop 4).take (be32val (s.take 4))).tail,
      (s.drop 4).drop (be32val (s.take 4)))

/-- The UTF-8 bytes of the JSON text produced by json.Marshal for
Request with ID "r1" and Command "ping" and all other fields omitted:
the 28 ASCII characters of the object with keys id and command. -/
def pingPayload : List Nat :=
  [123, 34, 105, 100, 34, 58, 34, 114, 49, 34, 44,
   34, 99, 111, 109, 109, 97, 110, 100, 34, 58, 34,
   112, 105, 110, 103, 34, 125]

theorem be32val_be32 (n : Nat) (h : n < 2 ^ 32) : be32val (be32 n) = n := by
  simp only [be32, be32val]
  omega

/-- Round trip of the frame codec: decoding the encoding of a frame whose
payload leaves the total length within the 10 MiB bound returns the type tag,
the payload, and an empty remainder. -/
theorem readFrame_writeFrame (t : Nat) (p : List Nat)
    (hp : p.length < 10 * 1024 * 1024) :
    readFrame (writeFrame t p) = some (t, p, []) := by
  have hlen : (1 + p.length) % 2 ^ 32 = 1 + p.length := by
    apply Nat.mod_eq_of_lt
    omega
  unfold writeFrame readFrame
  rw [hlen]
  have hbe : (be32 (1 + p.length)).length = 4 := rfl
  have htot : (be32 (1 + p.length) ++ t :: p).length = 4 + (1 + p.length) := by
    rw [List.length_append, hbe, List.length_cons]
    omega
  have htake : (be32 (1 + p.length) ++ t :: p).take 4
      = be32 (1 + p.length) := List.take_left' hbe
  have hdrop : (be32 (1 + p.length) ++ t :: p).drop 4
      = t :: p := List.drop_left' hbe
  rw [if_neg (by omega), htake, be32val_be32 (1 + p.length) (by omega)]
  rw [if_neg (by omega), if_neg (by omega), hdrop]
  rw [if_neg (by simp; omega)]
  have htk : (t :: p).take (1 + p.length) = t :: p := by
    apply List.take_of_length_le
    simp; omega
  have hdr : (t :: p).drop (1 + p.length) = [] := by
    apply List.drop_of_length_le
    simp; omega
  rw [htk, hdr]
  rfl

/-- C2 counterexample: the JSON payload for the ping request is 28 bytes, not
27, so encoding it yields the header bytes 00 00 00 1D 01, not
00 00 00 1C 01 as the claim states. -/
theorem C2_frame_counterexample :
    pingPayload.length = 28
    ∧ writeFrame frameControl pingPayload
        ≠ [0x00, 0x00, 0x00, 0x1C, 0x01] ++ pingPayload := by
  constructor
  · rfl
  · decide

/-- C2 (amended): decoding the encoding of any frame with a byte-valued type
tag and a payload of fewer than 10*1024*1024 bytes returns the same type tag
and payload; encoding a Control frame with the 28-byte ping-request payload
produces exactly the five header bytes 00 00 00 1D 01 followed by those 28
payload bytes. -/
theorem C2_frame_roundtrip :
    (∀ (t : Nat) (p : List Nat), t < 256 → p.length < 10 * 1024 * 1024 →
      readFrame (writeFrame t p) = some (t, p, []))
    ∧ writeFrame frameControl pingPayload
        = [0x00, 0x00, 0x00, 0x1D, 0x01] ++ pingPayload := by
  constructor
  · intro t p _ hp
    exact readFrame_writeFrame t p hp
  · decide

/-- Witness for C2 at the concrete ping-request frame. -/
theorem C2_frame_roundtrip_witness :
    readFrame (writeFrame frameControl pingPayload)
      = some (frameControl, pingPayload, []) :=
  C2_frame_roundtrip.1 frameControl pingPayload (by decide) (by decide)

/-! ### Data frames (internal/shepherd/protocol.go) -/

/-- The payload laid out by writeDataFrame: one length byte (the Go conversion
byte(len(id)) truncates the id length modulo 256), then the id bytes, then
the data bytes. -/
def dataPayload (sessionID data : List Nat) : List Nat :=
  (sessionID.length % 256) :: sessionID ++ data

/-- writeDataFrame: a frame of the given type whose payload is the
id-length-tagged concatenation of session id and data. -/
def writeDataFrame (frameType : Nat) (sessionID data : List Nat) : List Nat :=
  writeFrame frameType (dataPayload sessionID data)

/-- parseDataPayload: reject an empty payload, read the id length from the
first byte, reject a payload shorter than that, and split the remainder into
session id and data. -/
def parseDataPayload (payload : List Nat) : Option (List Nat × List Nat) :=
  match payload with
  | [] => none
  | idLen :: rest =>
      if rest.length < idLen then none
      else some (rest.take idLen, rest.drop idLen)

theorem parseDataPayload_dataPayload (sid data : List Nat)
    (h : sid.length ≤ 255) :
    parseDataPayload (dataPayload sid data) = some (sid, data) := by
  have hm : sid.length % 256 = sid.length := Nat.mod_eq_of_lt (by omega)
  unfold dataPayload
  rw [hm]
  show (if (sid ++ data).length < sid.length then none
      else some ((sid ++ data).take sid.length, (sid ++ data).drop sid.length))
    = some (sid, data)
  rw [if_neg (by simp), List.take_left, List.drop_left]

set_option maxRecDepth 4096

/-- C10: parseDataPayload inverts the payload built by writeDataFrame for any
session id of at most 255 bytes; for a 256-byte id the one-byte length tag
wraps to zero, the encoding collides with the payload for an empty id, and
parsing no longer recovers the original id. -/
theorem C10_data_payload_roundtrip :
    (∀ (sid data : List Nat), sid.length ≤ 255 →
      parseDataPayload (dataPayload sid data) = some (sid, data))
    ∧ dataPayload (List.replicate 256 97) [] = dataPayload [] (List.replicate 256 97)
    ∧ ((List.replicate 256 97 : List Nat), ([] : List Nat))
        ≠ (([] : List Nat), (List.replicate 256 97 : List Nat))
    ∧ parseDataPayload (dataPayload (List.replicate 256 97) [])
        ≠ some (List.replicate 256 97, []) := by
  refine ⟨parseDataPayload_dataPayload, ?_, ?_, ?_⟩
  · decide
  · decide
  · decide

/-- Witness for C10 at a concrete three-byte id. -/
theorem C10_data_payload_roundtrip_witness :
    parseDataPayload (dataPayload [97, 98, 99] [1, 2, 3])
      = some ([97, 98, 99], [1, 2, 3]) :=
  C10_data_payload_roundtrip.1 [97, 98, 99] [1, 2, 3] (by decide)

/-! ### Shepherd exit broadcast (internal/shepherd/shepherd.go) -/

/-- Response from protocol.go: a JSON control message from the shepherd to a
client. Absent JSON fields take the Go zero values given here as defaults. -/
structure Response where
  id : String := ""
  event : String := ""
  pid : Nat := 0
  error : String := ""
  sessionID : String := ""
  data : List Nat := []
  sessions : List String := []
deriving DecidableEq

/-- The event string of the asynchronous exit notification. -/
def evtExited : String := "exited"

/-- An observable action of the shepherd exit monitor: a control-frame write
to one connected client, or the removal of a session from the table. -/
inductive ShepherdEvent where
  | send (client : Nat) (resp : Response)
  | removeSession (sessionID : String)
deriving DecidableEq

/-- Shepherd state relevant to exit handling: the session table keys and the
set of connected clients (identified by numbers; the Go map keys are
connection writers). -/
structure ShepherdState where
  sessions : List String
  clients : List Nat

/-- broadcastExit: snapshot the connected clients under the client lock, then
write to each the Exited response whose correlation id and other fields keep
their zero values. -/
def broadcastExit (clients : List Nat) (sessionID : String) :
    List ShepherdEvent :=
  clients.map (fun c =>
    ShepherdEvent.send c { event := evtExited, sessionID := sessionID })

/-- The tail of the exit-monitor goroutine spawned by handleStart: after
cmd.Wait returns it broadcasts the exit to all connected clients and then
deletes the session from the session table, in that order. -/
def reapEvents (st : ShepherdState) (sessionID : String) : List ShepherdEvent :=
  broadcastExit st.clients sessionID ++ [ShepherdEvent.removeSession sessionID]

/-- The session-table effect of the exit monitor: the session is deleted. -/
def reapState (st : ShepherdState) (sessionID : String) : ShepherdState :=
  { st with sessions := st.sessions.erase sessionID }

theorem send_injective (resp : Response) :
    Function.Injective (fun c => ShepherdEvent.send c resp) := by
  intro a b hab
  simpa using hab

/-- C3: when a session's child is reaped, every currently connected client is
sent exactly one Exited notification carrying the session id and an empty
correlation id, every send precedes the removal of the session from the
table, and the session is removed. -/
theorem C3_exit_broadcast (st : ShepherdState) (sid : String)
    (hclients : st.clients.Nodup) (hsessions : st.sessions.Nodup) :
    (∀ c ∈ st.clients,
      (reapEvents st sid).count
        (ShepherdEvent.send c { event := evtExited, sessionID := sid }) = 1)
    ∧ (∀ c r, ShepherdEvent.send c r ∈ reapEvents st sid →
        r.id = "" ∧ r.event = evtExited ∧ r.sessionID = sid)
    ∧ (∀ i j (hi : i < (reapEvents st sid).length)
        (hj : j < (reapEvents st sid).length) (c : Nat) (r : Response),
        (reapEvents st sid).get ⟨i, hi⟩ = ShepherdEvent.send c r →
        (reapEvents st sid).get ⟨j, hj⟩ = ShepherdEvent.removeSession sid →
        i < j)
    ∧ sid ∉ (reapState st sid).sessions := by
  refine ⟨?_, ?_, ?_, ?_⟩
  · intro c hc
    unfold reapEvents broadcastExit
    rw [List.count_append]
    have h1 : (st.clients.map (fun c =>
        ShepherdEvent.send c { event := evtExited, sessionID := sid })).count
          (ShepherdEvent.send c { event := evtExited, sessionID := sid })
        = st.clients.count c :=
      List.count_map_of_injective st.clients _ (send_injective _) c
    have h2 : ([ShepherdEvent.removeSession sid] : List ShepherdEvent).count
        (ShepherdEvent.send c { event := evtExited, sessionID := sid }) = 0 := by
      simp [List.count_cons]
    rw [h1, h2, List.count_eq_one_of_mem hclients hc]
  · intro c r hmem
    unfold reapEvents broadcastExit at hmem
    rw [List.mem_append] at hmem
    rcases hmem with hmem | hmem
    · rw [List.mem_map] at hmem
      obtain ⟨c2, _, heq⟩ := hmem
      cases heq
      exact ⟨rfl, rfl, rfl⟩
    · simp at hmem
  · intro i j hi hj c r hsend hrem
    have hlen : (reapEvents st sid).length = st.clients.length + 1 := by
      unfold reapEvents broadcastExit
      rw [List.length_append, List.length_map, List.length_cons,
        List.length_nil]
    by_cases hjlt : j < st.clients.length
    · exfalso
      have hj2 : j < (broadcastExit st.clients sid).length := by
        unfold broadcastExit
        rw [List.length_map]
        exact hjlt
      have : (reapEvents st sid).get ⟨j, hj⟩
          = (broadcastExit st.clients sid).get ⟨j, hj2⟩ := by
        unfold reapEvents
        exact List.get_append j hj2
      rw [hrem] at this
      have hmem : ShepherdEvent.removeSession sid ∈ broadcastExit st.clients sid := by
        rw [this]
        exact List.get_mem _ j hj2
      unfold broadcastExit at hmem
      rw [List.mem_map] at hmem
      obtain ⟨c2, _, heq⟩ := hmem
      exact ShepherdEvent.noConfusion heq
    · have hjeq : j = st.clients.length := by omega
      by_cases hilt : i < st.clients.length
      · omega
      · exfalso
        have hij : i = j := by omega
        subst hij
        have hpi : (reapEvents st sid).get ⟨i, hi⟩
            = (reapEvents st sid).get ⟨i, hj⟩ := rfl
        rw [hpi, hrem] at hsend
        exact ShepherdEvent.noConfusion hsend
  · exact hsessions.not_mem_erase

/-- Witness for C3: with session table containing session abc and two
connected clients, client 0 receives exactly one Exited notification for
abc. -/
theorem C3_exit_broadcast_witness :
    (reapEvents ⟨["abc"], [0, 1]⟩ "abc").count
      (ShepherdEvent.send 0 { event := evtExited, sessionID := "abc" }) = 1 :=
  (C3_exit_broadcast ⟨["abc"], [0, 1]⟩ "abc" (by simp) (by simp)).1 0 (by simp)

/-! ### Subscriber fan-out (internal/shepherd/shepherd.go, internal/pty) -/

/-- The buffered-channel capacity used by every subscribe in the source:
make(chan []byte, 256). -/
def subscriberCap : Nat := 256

/-- A subscriber: a bounded queue of output chunks together with the capacity
the channel was created with. -/
structure Subscriber where
  queue : List (List Nat) := []
  cap : Nat := subscriberCap
deriving DecidableEq

/-- session.subscribe: register a fresh empty subscriber channel of capacity
256. -/
def sessionSubscribe (subs : List Subscriber) : List Subscriber :=
  subs ++ [{ queue := [], cap := subscriberCap }]

/-- The non-blocking send (select with a default branch): enqueue the chunk if
the channel buffer has free space, otherwise drop the chunk and leave the
queue unchanged. -/
def trySend (s : Subscriber) (data : List Nat) : Subscriber :=
  if s.queue.length < s.cap then { s with queue := s.queue ++ [data] } else s

/-- session.broadcast: non-blocking send of the chunk to every registered
subscriber. -/
def sessionBroadcast (subs : List Subscriber) (data : List Nat) :
    List Subscriber :=
  subs.map (fun s => trySend s data)

/-- C4: every subscriber created by subscribe has capacity 256 and an empty
queue; on broadcast each chunk is enqueued for exactly the subscribers with
free queue space, is dropped (the newest chunk lost, queued chunks kept) for
a full subscriber, and is delivered at most once to each subscriber; the
broadcast touches no other subscriber entry. -/
theorem C4_subscriber_fanout (subs : List Subscriber) (data : List Nat) :
    (∀ s ∈ sessionSubscribe subs, s ∈ subs ∨
      (s.queue = [] ∧ s.cap = subscriberCap))
    ∧ (sessionBroadcast subs data).length = subs.length
    ∧ (∀ i (hi : i < subs.length),
        (sessionBroadcast subs data).get ⟨i, by
          unfold sessionBroadcast
          rw [List.length_map]
          exact hi⟩
          = if (subs.get ⟨i, hi⟩).queue.length < (subs.get ⟨i, hi⟩).cap
            then { subs.get ⟨i, hi⟩ with
              queue := (subs.get ⟨i, hi⟩).queue ++ [data] }
            else subs.get ⟨i, hi⟩)
    ∧ (∀ s ∈ subs,
        (trySend s data).queue.count data ≤ s.queue.count data + 1)
    ∧ (∀ s ∈ subs, s.queue.length = s.cap → trySend s data = s) := by
  refine ⟨?_, ?_, ?_, ?_, ?_⟩
  · intro s hs
    unfold sessionSubscribe at hs
    rw [List.mem_append] at hs
    rcases hs with hs | hs
    · exact Or.inl hs
    · right
      rw [List.mem_singleton] at hs
      rw [hs]
      exact ⟨rfl, rfl⟩
  · unfold sessionBroadcast
    rw [List.length_map]
  · intro i hi
    unfold sessionBroadcast trySend
    rw [List.get_map]
  · intro s _
    unfold trySend
    by_cases h : s.queue.length < s.cap
    · rw [if_pos h]
      simp [List.count_append]
    · rw [if_neg h]
      omega
  · intro s _ hfull
    unfold trySend
    rw [if_neg (by omega)]

/-- Witness for C4: broadcasting to one empty subscriber and one full
subscriber enqueues for the first and leaves the second unchanged. -/
theorem C4_subscriber_fanout_witness :
    (sessionBroadcast
        [{ queue := [], cap := 256 },
         { queue := List.replicate 256 [9], cap := 256 }] [1, 2]).get
      ⟨0, by decide⟩ = { queue := [[1, 2]], cap := 256 }
    ∧ trySend { queue := List.replicate 256 [9], cap := 256 } [1, 2]
        = { queue := List.replicate 256 [9], cap := 256 } := by
  constructor
  · have h := (C4_subscriber_fanout
        [{ queue := [], cap := 256 },
         { queue := List.replicate 256 [9], cap := 256 }] [1, 2]).2.2.1
        0 (by decide)
    rw [h]
    rfl
  · exact (C4_subscriber_fanout
        [{ queue := [], cap := 256 },
         { queue := List.replicate 256 [9], cap := 256 }] [1, 2]).2.2.2.2
        { queue := List.replicate 256 [9], cap := 256 }
        (by simp)
        (by rw [List.length_replicate])

/-! ### WebSocket bridge write ordering (internal/ws/handler.go) -/

/-- The ordered sequence of binary frames Handler.ServeHTTP writes to a fresh
client: the replay snapshot first (sent only when non-empty), then the chunks
the subscription delivers, in order. The subscription is taken only after the
replay write succeeds. -/
def bridgeWrites (replay : List Nat) (live : List (List Nat)) :
    List (List Nat) :=
  (if replay.length > 0 then [replay] else []) ++ live

/-- C5: on a fresh attach every byte of the replay snapshot reaches the client
before any byte of live output: the concatenated write stream starts with the
replay snapshot, and when the snapshot is non-empty it is exactly the first
frame written, before every live chunk. -/
theorem C5_replay_before_live (replay : List Nat) (live : List (List Nat)) :
    (bridgeWrites replay live).flatten = replay ++ live.flatten
    ∧ (replay ≠ [] → bridgeWrites replay live = replay :: live) := by
  constructor
  · unfold bridgeWrites
    by_cases h : replay.length > 0
    · rw [if_pos h, List.flatten_append, List.flatten_cons, List.flatten_nil,
        List.append_nil]
    · rw [if_neg h]
      have : replay = [] := by
        rw [← List.length_eq_zero]
        omega
      rw [this, List.nil_append, List.nil_append]
  · intro h
    unfold bridgeWrites
    rw [if_pos (by
      cases replay with
      | nil => exact absurd rfl h
      | cons a l => simp)]
    rfl

/-- Witness for C5 with a non-empty replay snapshot and one live chunk. -/
theorem C5_replay_before_live_witness :
    bridgeWrites [1, 2] [[3], [4]] = [1, 2] :: [[3], [4]] :=
  (C5_replay_before_live [1, 2] [[3], [4]]).2 (by decide)

/-! ### Supervisor client refcounted subscribe (unnamed shepherd client) -/

/-- The shepherd client's per-session fan-out state: for each session id (a
byte string) the list of local subscriber channel queues, and whether a
Subscribe request has already been sent to the shepherd for that session. -/
structure ClientSubs where
  sessionSubs : List Nat → List (List (List Nat))
  shepherdSubbed : List Nat → Bool

/-- The client state right after NewClient: no subscribers, nothing subscribed
at the shepherd. -/
def clientSubsInit : ClientSubs :=
  ⟨fun _ => [], fun _ => false⟩

/-- Client.subscribe: create a channel of capacity 256, append it to the
session's local subscriber list, and send a Subscribe request to the shepherd
only if none was sent before for this session. Returns the new state and
whether the remote request was sent. -/
def clientSubscribe (st : ClientSubs) (sid : List Nat) : ClientSubs × Bool :=
  (⟨fun s => if s = sid then st.sessionSubs s ++ [[]] else st.sessionSubs s,
    fun s => if s = sid then true else st.shepherdSubbed s⟩,
   ! st.shepherdSubbed sid)

/-- Client.handleDataFrame: parse the data payload; on success, non-blocking
send of the chunk to every local subscriber queue of that session (channels
of capacity 256, drop on overflow). -/
def handleDataFrame (st : ClientSubs) (payload : List Nat) : ClientSubs :=
  match parseDataPayload payload with
  | none => st
  | some (sid, data) =>
      ⟨fun s => if s = sid
          then (st.sessionSubs s).map
            (fun q => if q.length < 256 then q ++ [data] else q)
          else st.sessionSubs s,
        st.shepherdSubbed⟩

/-- C6: from a fresh client, subscribing twice to the same session sends
exactly one Subscribe request to the shepherd (on the first call only),
registers two local subscriber channels, and a subsequent output chunk for
that session is delivered to both channels. -/
theorem C6_subscribe_refcount (sid data : List Nat) (hsid : sid.length ≤ 255) :
    (clientSubscribe clientSubsInit sid).2 = true
    ∧ (clientSubscribe (clientSubscribe clientSubsInit sid).1 sid).2 = false
    ∧ ((clientSubscribe (clientSubscribe clientSubsInit sid).1 sid).1).sessionSubs
        sid = [[], []]
    ∧ (handleDataFrame
        (clientSubscribe (clientSubscribe clientSubsInit sid).1 sid).1
        (dataPayload sid data)).sessionSubs sid = [[data], [data]] := by
  refine ⟨rfl, ?_, ?_, ?_⟩
  · unfold clientSubscribe clientSubsInit
    simp
  · unfold clientSubscribe clientSubsInit
    simp
  · unfold handleDataFrame
    rw [parseDataPayload_dataPayload sid data hsid]
    unfold clientSubscribe clientSubsInit
    simp

/-- Witness for C6 at a concrete one-byte session id and chunk. -/
theorem C6_subscribe_refcount_witness :
    (handleDataFrame
        (clientSubscribe (clientSubscribe clientSubsInit [97]).1 [97]).1
        (dataPayload [97] [7, 8])).sessionSubs [97] = [[[7, 8]], [[7, 8]]] :=
  (C6_subscribe_refcount [97] [7, 8] (by decide)).2.2.2

/-! ### Backend observational equivalence (internal/pty manager vs client) -/

/-- A SessionManager operation from the interface consumed by the WebSocket
bridge and REST layer. -/
inductive ManagerOp where
  | start (id : String)
  | stop (id : String)
  | resize (id : String) (rows cols : Nat)
  | stopAll
deriving DecidableEq

/-- The local pty Manager's session table, viewed as membership of session
ids: Start inserts the id, Stop deletes it, Resize mutates nothing, StopAll
stops (and deletes) every session. -/
def localStep (present : String → Bool) : ManagerOp → (String → Bool)
  | ManagerOp.start id => fun s => if s = id then true else present s
  | ManagerOp.stop id => fun s => if s = id then false else present s
  | ManagerOp.resize _ _ _ => present
  | ManagerOp.stopAll => fun _ => false

/-- The shepherd Client's sessionDone table, viewed as membership of session
ids: Start pre-creates the done channel, Stop deletes it, Resize mutates
nothing, and StopAll only sends the stop_all request to the shepherd without
touching the client's local tables. -/
def clientStep (present : String → Bool) : ManagerOp → (String → Bool)
  | ManagerOp.start id => fun s => if s = id then true else present s
  | ManagerOp.stop id => fun s => if s = id then false else present s
  | ManagerOp.resize _ _ _ => present
  | ManagerOp.stopAll => present

/-- Whether Manager.Get returns a session handle after the given operations,
starting from an empty manager. -/
def localRun (ops : List ManagerOp) : String → Bool :=
  ops.foldl localStep (fun _ => false)

/-- Whether Client.Get returns a session handle after the given operations,
starting from a freshly connected client. -/
def clientRun (ops : List ManagerOp) : String → Bool :=
  ops.foldl clientStep (fun _ => false)

/-- C7 counterexample: after start of session a followed by stopAll, the
local manager's get returns no handle while the supervisor client's get
still returns one, so the two backends are not observationally identical
under the full SessionManager contract. -/
theorem C7_backend_counterexample :
    localRun [ManagerOp.start "a", ManagerOp.stopAll] "a" = false
    ∧ clientRun [ManagerOp.start "a", ManagerOp.stopAll] "a" = true := by
  constructor
  · rfl
  · rfl

theorem foldl_step_parity (ops : List ManagerOp) :
    ∀ p q : String → Bool, (∀ s, p s = q s) →
      ManagerOp.stopAll ∉ ops →
      ∀ id, ops.foldl localStep p id = ops.foldl clientStep q id := by
  induction ops with
  | nil =>
      intro p q hpq _ id
      rw [List.foldl_nil, List.foldl_nil]
      exact hpq id
  | cons o os ih =>
      intro p q hpq hno id
      rw [List.foldl_cons, List.foldl_cons]
      have hno2 : ManagerOp.stopAll ∉ os := fun hmem =>
        hno (List.mem_cons_of_mem o hmem)
      apply ih _ _ _ hno2
      intro s
      cases o with
      | start i => unfold localStep clientStep; by_cases h : s = i <;> simp [h, hpq s]
      | stop i => unfold localStep clientStep; by_cases h : s = i <;> simp [h, hpq s]
      | resize i r c => unfold localStep clientStep; exact hpq s
      | stopAll => exact absurd (List.mem_cons_self _ _) hno

/-- C7 (amended): for every sequence of manager operations that does not
contain stopAll, get(id) returns a handle in the local backend exactly when
it does in the supervisor-client backend; stopAll breaks the equivalence
because the client does not clear its local session tables. -/
theorem C7_backend_get_parity (ops : List ManagerOp)
    (h : ManagerOp.stopAll ∉ ops) (id : String) :
    localRun ops id = clientRun ops id := by
  unfold localRun clientRun
  exact foldl_step_parity ops _ _ (fun _ => rfl) h id

/-- Witness for C7 on a concrete stopAll-free operation sequence. -/
theorem C7_backend_get_parity_witness :
    localRun [ManagerOp.start "a", ManagerOp.stop "a", ManagerOp.start "b"] "b"
      = clientRun [ManagerOp.start "a", ManagerOp.stop "a",
          ManagerOp.start "b"] "b" :=
  C7_backend_get_parity
    [ManagerOp.start "a", ManagerOp.stop "a", ManagerOp.start "b"]
    (by decide) "b"

/-! ### Gateway proxy failure path (internal/gateway) -/

/-- The outcome of Proxy.ServeHTTP for one user request: the SPA fallback, an
HTTP error response written without a tunnel stream, or a successfully opened
tunnel stream. -/
inductive ProxyResult where
  | spa
  | httpError (status : Nat) (body : String)
  | streamOpened
deriving DecidableEq

/-- The error body written by both proxyHTTP and proxyWebSocket when
OpenStream fails. -/
def noTunnelBody : String :=
  "\x7b\"error\":\"gateway not connected to superposition\"\x7d"

/-- Tunnel.OpenStream: with no yamux session connected it returns the
errNoTunnel error; otherwise it opens a stream on the session. The tunnel
state is abstracted to whether a session is connected. -/
def tunnelOpenStream (connected : Bool) : Except String Unit :=
  if connected then Except.ok () else
    Except.error "gateway: superposition not connected"

/-- Proxy.proxyHTTP up to the point a stream exists: on OpenStream failure it
writes HTTP 502 with the JSON error body and returns. -/
def proxyHTTP (connected : Bool) : ProxyResult :=
  match tunnelOpenStream connected with
  | Except.error _ => ProxyResult.httpError 502 noTunnelBody
  | Except.ok _ => ProxyResult.streamOpened

/-- Proxy.proxyWebSocket up to the point a stream exists: identical failure
behaviour. -/
def proxyWebSocket (connected : Bool) : ProxyResult :=
  match tunnelOpenStream connected with
  | Except.error _ => ProxyResult.httpError 502 noTunnelBody
  | Except.ok _ => ProxyResult.streamOpened

/-- Request paths and header values as UTF-8 byte strings. -/
def apiPathTag : List Nat := [47, 97, 112, 105, 47]

/-- The byte string of the path tag for WebSocket routes. -/
def wsPathTag : List Nat := [47, 119, 115, 47]

/-- The byte string of the websocket Upgrade header value. -/
def websocketHeader : List Nat := [119, 101, 98, 115, 111, 99, 107, 101, 116]

/-- Proxy.ServeHTTP: paths without the api or ws tag go to the SPA handler;
ws-tagged paths with a websocket Upgrade header go to proxyWebSocket; all
other tagged paths go to proxyHTTP. -/
def proxyServe (path upgradeHeader : List Nat) (connected : Bool) :
    ProxyResult :=
  let isAPI := apiPathTag.isPrefixOf path
  let isWS := wsPathTag.isPrefixOf path
  if !isAPI && !isWS then ProxyResult.spa
  else if isWS && (upgradeHeader == websocketHeader) then
    proxyWebSocket connected
  else proxyHTTP connected

/-- C8: with no tunnel connected, every request whose path starts with the
api or ws tag fails fast with HTTP 502 and the exact JSON error body, and in
particular no tunnel stream is opened. -/
theorem C8_no_tunnel_502 (path upgradeHeader : List Nat)
    (h : apiPathTag.isPrefixOf path = true ∨ wsPathTag.isPrefixOf path = true) :
    proxyServe path upgradeHeader false
      = ProxyResult.httpError 502
          "\x7b\"error\":\"gateway not connected to superposition\"\x7d"
    ∧ proxyServe path upgradeHeader false ≠ ProxyResult.streamOpened := by
  have hserve : proxyServe path upgradeHeader false
      = ProxyResult.httpError 502 noTunnelBody := by
    unfold proxyServe
    rcases h with h | h
    · rw [h]
      by_cases hw : wsPathTag.isPrefixOf path = true
      · rw [hw]
        by_cases hu : (upgradeHeader == websocketHeader) = true
        · simp only [hu]
          unfold proxyWebSocket tunnelOpenStream
          rfl
        · simp only [Bool.not_eq_true] at hu
          simp only [hu]
          unfold proxyHTTP tunnelOpenStream
          rfl
      · simp only [Bool.not_eq_true] at hw
        simp only [hw]
        unfold proxyHTTP tunnelOpenStream
        rfl
    · rw [h]
      by_cases ha : apiPathTag.isPrefixOf path = true
      · rw [ha]
        by_cases hu : (upgradeHeader == websocketHeader) = true
        · simp only [hu]
          unfold proxyWebSocket tunnelOpenStream
          rfl
        · simp only [Bool.not_eq_true] at hu
          simp only [hu]
          unfold proxyHTTP tunnelOpenStream
          rfl
      · simp only [Bool.not_eq_true] at ha
        simp only [ha]
        by_cases hu : (upgradeHeader == websocketHeader) = true
        · simp only [hu]
          unfold proxyWebSocket tunnelOpenStream
          rfl
        · simp only [Bool.not_eq_true] at hu
          simp only [hu]
          unfold proxyHTTP tunnelOpenStream
          rfl
  refine ⟨hserve, ?_⟩
  rw [hserve]
  intro hcontra
  exact ProxyResult.noConfusion hcontra

/-- Witness for C8 at the api health path with no Upgrade header. -/
theorem C8_no_tunnel_502_witness :
    proxyServe [47, 97, 112, 105, 47, 104, 101, 97, 108, 116, 104] [] false
      = ProxyResult.httpError 502
          "\x7b\"error\":\"gateway not connected to superposition\"\x7d" :=
  (C8_no_tunnel_502 [47, 97, 112, 105, 47, 104, 101, 97, 108, 116, 104] []
    (Or.inl (by decide))).1

/-! ### Reverse-tunnel reconnect loop (internal/tunnel/client.go) -/

/-- The fate of one connection attempt: the dial (or yamux setup) fails, or
the connection succeeds and is later closed, ending the accept loop. -/
inductive TunnelAttempt where
  | dialFail
  | connectedThenClosed
deriving DecidableEq

/-- Client.connect: every control path returns a non-nil error — the dial
error, the yamux setup error, or the accept-loop error after the session
(possibly long-lived) closes. There is no path returning nil. -/
def connectResult : TunnelAttempt → Option String
  | TunnelAttempt.dialFail => some "dial gateway"
  | TunnelAttempt.connectedThenClosed => some "accept stream"

/-- One iteration of the loop in Client.Run: when connect() returns an error,
sleep the current backoff and double it capped at 30 s; when connect()
returns nil, reset the backoff to 1 s without sleeping. Returns the new
backoff and the delays slept (in seconds). -/
def runStep (backoff : Nat) (a : TunnelAttempt) : Nat × List Nat :=
  match connectResult a with
  | some _ => (min (backoff * 2) 30, [backoff])
  | none => (1, [])

/-- The wall-clock delays slept by Client.Run across the given attempts,
starting from the initial 1 s backoff. -/
def runDelays (attempts : List TunnelAttempt) : List Nat :=
  (attempts.foldl
    (fun st a => ((runStep st.1 a).1, st.2 ++ (runStep st.1 a).2))
    (1, ([] : List Nat))).2

/-- C9: the code's actual behaviour at the failing input. After two failed
dials, a successful connection that the gateway later closes, and another
failed dial, the slept delays are 1, 2, 4, 8 seconds: the backoff does not
reset to 1 s after the successful connection, because connect() returns a
non-nil error on every control path, so the reset branch of Client.Run never
runs despite its comment. -/
theorem C9_backoff_never_resets :
    runDelays [TunnelAttempt.dialFail, TunnelAttempt.dialFail,
        TunnelAttempt.connectedThenClosed, TunnelAttempt.dialFail]
      = [1, 2, 4, 8]
    ∧ (∀ a, (connectResult a).isSome = true)
    ∧ runDelays (List.replicate 8 TunnelAttempt.dialFail)
      = [1, 2, 4, 8, 16, 30, 30, 30] := by
  refine ⟨rfl, ?_, rfl⟩
  intro a
  cases a <;> rfl

end Superposition
